import Mathlib

/-!
Verification of `scripts/periodic_runner.py`: a supervisor that runs an
external command repeatedly at a fixed interval until a termination signal
is observed, tracking execution statistics and reporting them.

The Python code is shallowly embedded as follows.

* `RunnerState` mirrors the mutable fields of class `PeriodicRunner`
  (`command`, `interval`, `execution_count`, `success_count`,
  `failure_count`, `running`); wall-clock timestamps (`start_time`) are not
  modelled.
* The asynchronous signal handler may flip `self.running` between any two
  reads of the flag by the loop.  We therefore model the loop's successive
  reads of `self.running` as a stream `flag : Nat → Bool`: the n-th read of
  the flag (in program order) returns `flag n`.  A monotone stream (once
  false, always false) corresponds to the real single-writer handler that
  only ever writes `False`.
* The external command is a black box: the n-th attempt's result is drawn
  from a stream `results : Nat → ExecResult`, where an `ExecResult` is
  either process completion with an exit code (`subprocess.run` returned)
  or a fault (`subprocess.run` raised).  `executeCommand` is the embedding
  of `PeriodicRunner._execute_command`, mapping the result to the boolean
  the Python function returns.
* The `while self.running` loop of `PeriodicRunner.run` becomes `runLoop`,
  a fuel-indexed function producing the final state and a trace of `Event`s
  (executions, mid-loop summaries, one-second sleep chunks, the final
  summary).  Fuel bounds only the number of outer iterations; `none` means
  the loop was still running when the fuel ran out, and `some` corresponds
  exactly to a run in which the loop exited.
* `printSummary` embeds `PeriodicRunner._print_summary` as a pure function
  from state to the report payload (real-time fields omitted); the success
  rate is an `Option ℚ`, `none` when the Python code skips the line.
* `construct` embeds the only construction path of the program: `main`
  validates `args.interval <= 0` (exiting before any `PeriodicRunner` is
  created) and otherwise builds the object via `PeriodicRunner.__init__`.
-/

namespace PeriodicRunner

/-- Mutable state of a `PeriodicRunner` instance (lines 23-30 of
`periodic_runner.py`); `start_time` is a wall-clock timestamp and is not
modelled. -/
structure RunnerState where
  command : String
  interval : Int
  execution_count : Nat
  success_count : Nat
  failure_count : Nat
  running : Bool
deriving DecidableEq, Repr

/-- `PeriodicRunner.__init__`: stores the command and interval and zeroes
the counters; `running` starts `True`. -/
def initState (command : String) (interval : Int) : RunnerState :=
  { command := command
    interval := interval
    execution_count := 0
    success_count := 0
    failure_count := 0
    running := true }

/-- The construction-time error of the spec's taxonomy. -/
inductive ConfigError where
  | invalidConfiguration
deriving DecidableEq, Repr

/-- The program's single construction path: `main` rejects
`args.interval <= 0` before any `PeriodicRunner` is created (lines
162-164), otherwise `PeriodicRunner(args.command, args.interval)` is
built (line 166). -/
def construct (command : String) (interval : Int) : Except ConfigError RunnerState :=
  if interval ≤ 0 then Except.error ConfigError.invalidConfiguration
  else Except.ok (initState command interval)

/-- `PeriodicRunner._signal_handler`: sets `self.running = False`
(line 39); nothing else in the state is touched. -/
def signalHandler (s : RunnerState) : RunnerState :=
  { s with running := false }

/-- Result of one `subprocess.run` call inside
`PeriodicRunner._execute_command`: either the subprocess completed with an
exit code, or the call raised an exception (the `except` branch). -/
inductive ExecResult where
  | completed (returncode : Int)
  | fault
deriving DecidableEq, Repr

/-- `PeriodicRunner._execute_command`: returns `result.returncode == 0` on
completion (line 56) and `False` from the `except` branch (line 65). -/
def executeCommand : ExecResult → Bool
  | ExecResult.completed rc => rc == 0
  | ExecResult.fault => false

/-- `self.execution_count += 1` (line 101): the count is bumped before the
executor is invoked. -/
def incrementExecution (s : RunnerState) : RunnerState :=
  { s with execution_count := s.execution_count + 1 }

/-- Lines 105-108: record the outcome of the attempt in the counters. -/
def recordOutcome (s : RunnerState) (success : Bool) : RunnerState :=
  if success then { s with success_count := s.success_count + 1 }
  else { s with failure_count := s.failure_count + 1 }

/-- One iteration's counter updates (lines 101-108): increment
`execution_count`, then record the outcome. -/
def loopBody (s : RunnerState) (success : Bool) : RunnerState :=
  recordOutcome (incrementExecution s) success

/-- The report payload produced by `PeriodicRunner._print_summary`
(real-time fields `total_runtime` and `next_run` omitted). -/
structure Summary where
  command : String
  interval : Int
  total_executions : Nat
  successful : Nat
  failed : Nat
  successRate : Option ℚ
deriving DecidableEq, Repr

/-- `PeriodicRunner._print_summary` as a pure function of the state: the
success-rate line is printed only under `if self.execution_count > 0`
(lines 81-83), where it is `(success_count / execution_count) * 100`. -/
def printSummary (s : RunnerState) : Summary :=
  { command := s.command
    interval := s.interval
    total_executions := s.execution_count
    successful := s.success_count
    failed := s.failure_count
    successRate :=
      if s.execution_count > 0 then
        some (((s.success_count : ℚ) / (s.execution_count : ℚ)) * 100)
      else none }

/-- `sleep_time = min(1, sleep_remaining)` (line 123). -/
def sleepDecrement (remaining : Nat) : Nat :=
  min 1 remaining

/-- Observable events of one run of `PeriodicRunner.run`. -/
inductive Event where
  | exec (pre : RunnerState) (success : Bool)
  | midReport (s : Summary)
  | sleepChunk (secs : Nat)
  | finalReport (s : Summary)
deriving DecidableEq, Repr

/-- The interruptible-sleep inner loop (lines 121-125):
`while sleep_remaining > 0 and self.running: time.sleep(min(1, r)); r -= ...`.
Python's `and` short-circuits, so the flag is read only when
`sleep_remaining > 0`; each read consumes one index of the flag stream.
Returns the next unread flag index and the sleep events performed. -/
def sleepPhase (flag : Nat → Bool) : Nat → Nat → Nat × List Event
  | 0, readIdx => (readIdx, [])
  | remaining + 1, readIdx =>
    if flag readIdx then
      let rest := sleepPhase flag remaining (readIdx + 1)
      (rest.1, Event.sleepChunk (sleepDecrement (remaining + 1)) :: rest.2)
    else (readIdx + 1, [])

/-- The main loop of `PeriodicRunner.run` (lines 100-129) plus the
unconditional final summary after it.  Reads of `self.running` happen, in
program order, at the `while self.running` test, at the
`if not self.running: break` test, and at each inner sleep test; each read
consumes one index of `flag`.  The n-th execution attempt draws
`results n`.  `fuel` bounds outer iterations only: `none` means the loop
had not yet exited. -/
def runLoop (results : Nat → ExecResult) (flag : Nat → Bool) :
    Nat → RunnerState → Nat → Option (RunnerState × List Event)
  | 0, _, _ => none
  | fuel + 1, s, readIdx =>
    if flag readIdx then
      let success := executeCommand (results s.execution_count)
      let s2 := loopBody s success
      if flag (readIdx + 1) then
        let slept := sleepPhase flag s2.interval.toNat (readIdx + 2)
        match runLoop results flag fuel s2 slept.1 with
        | none => none
        | some (sf, evs) =>
          some (sf, Event.exec s success :: Event.midReport (printSummary s2) ::
                    (slept.2 ++ evs))
      else
        some (s2, [Event.exec s success, Event.finalReport (printSummary s2)])
    else
      some (s, [Event.finalReport (printSummary s)])

/-- A complete run of `PeriodicRunner.run` from a fresh instance. -/
def runFrom (command : String) (interval : Int) (results : Nat → ExecResult)
    (flag : Nat → Bool) (fuel : Nat) : Option (RunnerState × List Event) :=
  runLoop results flag fuel (initState command interval) 0

/-- Number of final status reports in a trace. -/
def countFinalReports : List Event → Nat
  | [] => 0
  | Event.finalReport _ :: es => countFinalReports es + 1
  | _ :: es => countFinalReports es

/-- Number of execution attempts in a trace. -/
def countExecs : List Event → Nat
  | [] => 0
  | Event.exec _ _ :: es => countExecs es + 1
  | _ :: es => countExecs es

/-- Total seconds slept in a trace. -/
def sleepSeconds : List Event → Nat
  | [] => 0
  | Event.sleepChunk n :: es => n + sleepSeconds es
  | _ :: es => sleepSeconds es

/-- The counter invariant of the spec's data model. -/
def countersConsistent (s : RunnerState) : Prop :=
  s.success_count + s.failure_count = s.execution_count

instance (s : RunnerState) : Decidable (countersConsistent s) := by
  unfold countersConsistent; infer_instance

/-! ### Basic lemmas about one loop iteration -/

theorem loopBody_execution_count (s : RunnerState) (b : Bool) :
    (loopBody s b).execution_count = s.execution_count + 1 := by
  unfold loopBody recordOutcome incrementExecution
  cases b <;> simp

theorem loopBody_interval (s : RunnerState) (b : Bool) :
    (loopBody s b).interval = s.interval := by
  unfold loopBody recordOutcome incrementExecution
  cases b <;> simp

theorem loopBody_running (s : RunnerState) (b : Bool) :
    (loopBody s b).running = s.running := by
  unfold loopBody recordOutcome incrementExecution
  cases b <;> simp

theorem loopBody_success_count (s : RunnerState) (b : Bool) :
    (loopBody s b).success_count = s.success_count + (if b then 1 else 0) := by
  unfold loopBody recordOutcome incrementExecution
  cases b <;> simp

theorem loopBody_failure_count (s : RunnerState) (b : Bool) :
    (loopBody s b).failure_count = s.failure_count + (if b then 0 else 1) := by
  unfold loopBody recordOutcome incrementExecution
  cases b <;> simp

theorem countersConsistent_loopBody {s : RunnerState} (b : Bool)
    (h : countersConsistent s) : countersConsistent (loopBody s b) := by
  unfold countersConsistent at h ⊢
  rw [loopBody_execution_count, loopBody_success_count, loopBody_failure_count]
  cases b <;> simp <;> omega

/-! ### Lemmas about the interruptible-sleep inner loop -/

theorem sleepDecrement_pos (r : Nat) (h : 0 < r) : 0 < sleepDecrement r := by
  unfold sleepDecrement; omega

theorem sleepDecrement_le_one (r : Nat) : sleepDecrement r ≤ 1 := by
  unfold sleepDecrement; omega

theorem sleepPhase_mem (flag : Nat → Bool) (remaining readIdx : Nat) :
    ∀ e ∈ (sleepPhase flag remaining readIdx).2, ∃ n, e = Event.sleepChunk n ∧ n ≤ 1 := by
  induction remaining generalizing readIdx with
  | zero => intro e he; simp [sleepPhase] at he
  | succ r ih =>
    intro e he
    unfold sleepPhase at he
    by_cases hf : flag readIdx
    · simp [hf] at he
      rcases he with he | he
      · exact ⟨sleepDecrement (r + 1), he, sleepDecrement_le_one _⟩
      · exact ih (readIdx + 1) e he
    · simp [hf] at he

theorem sleepSeconds_sleepPhase_le (flag : Nat → Bool) (remaining readIdx : Nat) :
    sleepSeconds (sleepPhase flag remaining readIdx).2 ≤ remaining := by
  induction remaining generalizing readIdx with
  | zero => simp [sleepPhase, sleepSeconds]
  | succ r ih =>
    unfold sleepPhase
    by_cases hf : flag readIdx
    · simp only [hf, if_true]
      simp only [sleepSeconds]
      have := ih (readIdx + 1)
      have hd : sleepDecrement (r + 1) = 1 := by unfold sleepDecrement; omega
      omega
    · simp [hf, sleepSeconds]

theorem sleepPhase_length_le (flag : Nat → Bool) (remaining readIdx : Nat) :
    (sleepPhase flag remaining readIdx).2.length ≤ remaining := by
  induction remaining generalizing readIdx with
  | zero => simp [sleepPhase]
  | succ r ih =>
    unfold sleepPhase
    by_cases hf : flag readIdx
    · simp only [hf, if_true, List.length_cons]
      exact Nat.succ_le_succ (ih (readIdx + 1))
    · simp [hf]

theorem sleepPhase_stopped (flag : Nat → Bool) (remaining readIdx k : Nat)
    (hk : ∀ t, k ≤ t → flag t = false) :
    sleepSeconds (sleepPhase flag remaining readIdx).2 ≤ k - readIdx := by
  induction remaining generalizing readIdx with
  | zero => simp [sleepPhase, sleepSeconds]
  | succ r ih =>
    unfold sleepPhase
    by_cases hf : flag readIdx
    · have hlt : readIdx < k := by
        by_contra hge
        exact absurd (hk readIdx (by omega)) (by simp [hf])
      simp only [hf, if_true, sleepSeconds]
      have := ih (readIdx + 1)
      have hd : sleepDecrement (r + 1) = 1 := by unfold sleepDecrement; omega
      omega
    · simp [hf, sleepSeconds]

theorem sleepPhase_readIdx_ge (flag : Nat → Bool) (remaining readIdx : Nat) :
    readIdx ≤ (sleepPhase flag remaining readIdx).1 := by
  induction remaining generalizing readIdx with
  | zero => simp [sleepPhase]
  | succ r ih =>
    unfold sleepPhase
    by_cases hf : flag readIdx
    · simp only [hf, if_true]
      have := ih (readIdx + 1)
      omega
    · simp [hf]

/-! ### Trace-counting helpers -/

theorem countFinalReports_append (l1 l2 : List Event) :
    countFinalReports (l1 ++ l2) = countFinalReports l1 + countFinalReports l2 := by
  induction l1 with
  | nil => simp [countFinalReports]
  | cons e es ih =>
    cases e <;> simp [countFinalReports, ih, Nat.add_right_comm]

theorem countExecs_append (l1 l2 : List Event) :
    countExecs (l1 ++ l2) = countExecs l1 + countExecs l2 := by
  induction l1 with
  | nil => simp [countExecs]
  | cons e es ih =>
    cases e <;> simp [countExecs, ih, Nat.add_right_comm]

theorem sleepSeconds_append (l1 l2 : List Event) :
    sleepSeconds (l1 ++ l2) = sleepSeconds l1 + sleepSeconds l2 := by
  induction l1 with
  | nil => simp [sleepSeconds]
  | cons e es ih =>
    cases e <;> simp [sleepSeconds, ih, Nat.add_assoc]

theorem countFinalReports_of_all_chunks (l : List Event)
    (h : ∀ e ∈ l, ∃ n, e = Event.sleepChunk n ∧ n ≤ 1) :
    countFinalReports l = 0 := by
  induction l with
  | nil => rfl
  | cons e es ih =>
    obtain ⟨n, rfl, -⟩ := h e (by simp)
    simp only [countFinalReports]
    exact ih (fun e he => h e (by simp [he]))

theorem countFinalReports_sleepPhase (flag : Nat → Bool) (remaining readIdx : Nat) :
    countFinalReports (sleepPhase flag remaining readIdx).2 = 0 :=
  countFinalReports_of_all_chunks _ (sleepPhase_mem flag remaining readIdx)

theorem countExecs_of_all_chunks (l : List Event)
    (h : ∀ e ∈ l, ∃ n, e = Event.sleepChunk n ∧ n ≤ 1) :
    countExecs l = 0 := by
  induction l with
  | nil => rfl
  | cons e es ih =>
    obtain ⟨n, rfl, -⟩ := h e (by simp)
    simp only [countExecs]
    exact ih (fun e he => h e (by simp [he]))

theorem countExecs_sleepPhase (flag : Nat → Bool) (remaining readIdx : Nat) :
    countExecs (sleepPhase flag remaining readIdx).2 = 0 :=
  countExecs_of_all_chunks _ (sleepPhase_mem flag remaining readIdx)

/-! ### Case-analysis lemmas for the outer loop -/

theorem runLoop_zero (results : Nat → ExecResult) (flag : Nat → Bool)
    (s : RunnerState) (readIdx : Nat) :
    runLoop results flag 0 s readIdx = none := rfl

theorem runLoop_succ_stop (results : Nat → ExecResult) (flag : Nat → Bool)
    (fuel : Nat) (s : RunnerState) (readIdx : Nat) (h : flag readIdx = false) :
    runLoop results flag (fuel + 1) s readIdx =
      some (s, [Event.finalReport (printSummary s)]) := by
  simp [runLoop, h]

theorem runLoop_succ_break (results : Nat → ExecResult) (flag : Nat → Bool)
    (fuel : Nat) (s : RunnerState) (readIdx : Nat)
    (h1 : flag readIdx = true) (h2 : flag (readIdx + 1) = false) :
    runLoop results flag (fuel + 1) s readIdx =
      some (loopBody s (executeCommand (results s.execution_count)),
        [Event.exec s (executeCommand (results s.execution_count)),
         Event.finalReport
           (printSummary (loopBody s (executeCommand (results s.execution_count))))]) := by
  simp [runLoop, h1, h2]

theorem runLoop_succ_continue (results : Nat → ExecResult) (flag : Nat → Bool)
    (fuel : Nat) (s : RunnerState) (readIdx : Nat)
    (h1 : flag readIdx = true) (h2 : flag (readIdx + 1) = true) :
    runLoop results flag (fuel + 1) s readIdx =
      Option.map (fun p : RunnerState × List Event =>
        (p.1, Event.exec s (executeCommand (results s.execution_count)) ::
              Event.midReport
                (printSummary (loopBody s (executeCommand (results s.execution_count)))) ::
              ((sleepPhase flag
                  (loopBody s (executeCommand (results s.execution_count))).interval.toNat
                  (readIdx + 2)).2 ++ p.2)))
        (runLoop results flag fuel
          (loopBody s (executeCommand (results s.execution_count)))
          (sleepPhase flag
            (loopBody s (executeCommand (results s.execution_count))).interval.toNat
            (readIdx + 2)).1) := by
  rw [runLoop]
  simp only [h1, h2, if_true]
  cases runLoop results flag fuel
      (loopBody s (executeCommand (results s.execution_count)))
      (sleepPhase flag
        (loopBody s (executeCommand (results s.execution_count))).interval.toNat
        (readIdx + 2)).1 with
  | none => rfl
  | some p => cases p; rfl

theorem optionMap_isSome {α β : Type} (f : α → β) (o : Option α) :
    (Option.map f o).isSome = o.isSome := by
  cases o
  · rfl
  · rfl

theorem runLoop_isSome_congr (res1 res2 : Nat → ExecResult) (flag : Nat → Bool)
    (fuel : Nat) (s1 s2 : RunnerState) (readIdx : Nat) (hint : s1.interval = s2.interval) :
    (runLoop res1 flag fuel s1 readIdx).isSome =
      (runLoop res2 flag fuel s2 readIdx).isSome := by
  induction fuel generalizing s1 s2 readIdx with
  | zero => rfl
  | succ fuel ih =>
    cases h1 : flag readIdx with
    | false =>
      rw [runLoop_succ_stop res1 flag fuel s1 readIdx h1,
          runLoop_succ_stop res2 flag fuel s2 readIdx h1]
      rfl
    | true =>
      cases h2 : flag (readIdx + 1) with
      | false =>
        rw [runLoop_succ_break res1 flag fuel s1 readIdx h1 h2,
            runLoop_succ_break res2 flag fuel s2 readIdx h1 h2]
        rfl
      | true =>
        rw [runLoop_succ_continue res1 flag fuel s1 readIdx h1 h2,
            runLoop_succ_continue res2 flag fuel s2 readIdx h1 h2]
        rw [optionMap_isSome, optionMap_isSome]
        have hi : (loopBody s1 (executeCommand (res1 s1.execution_count))).interval
            = (loopBody s2 (executeCommand (res2 s2.execution_count))).interval := by
          rw [loopBody_interval, loopBody_interval, hint]
        rw [hi]
        exact ih _ _ _ hi

theorem loopBody_success_iff (s : RunnerState) (b : Bool) :
    (loopBody s b).success_count = s.success_count + 1 ↔ b = true := by
  rw [loopBody_success_count]
  cases b
  · simp
  · simp

theorem signalHandler_signalHandler (s : RunnerState) :
    signalHandler (signalHandler s) = signalHandler s := rfl

theorem signalHandler_iterate (n : Nat) (s : RunnerState) :
    signalHandler^[n + 1] s = signalHandler s := by
  induction n generalizing s with
  | zero => rfl
  | succ n ih =>
    rw [Function.iterate_succ_apply, ih (signalHandler s), signalHandler_signalHandler]

/-! ### Claims -/

/-- C2: for every interval > 0 the program's construction path yields a
Supervisor instance; for every interval ≤ 0 it fails with
`InvalidConfiguration`, no instance results, and the fresh instance that
would have resulted has attempted no execution. -/
theorem construct_validates_interval (command : String) (interval : Int) :
    (0 < interval → construct command interval = Except.ok (initState command interval)) ∧
    (interval ≤ 0 →
      construct command interval = Except.error ConfigError.invalidConfiguration ∧
      ∀ s : RunnerState, construct command interval ≠ Except.ok s) ∧
    (initState command interval).execution_count = 0 := by
  refine ⟨fun h => ?_, fun h => ⟨?_, fun s hs => ?_⟩, rfl⟩
  · simp [construct, not_le.mpr h]
  · simp [construct, h]
  · simp [construct, h] at hs

/-- C2 witness: interval 30 constructs successfully; interval 0 and
interval -5 fail with `InvalidConfiguration`. -/
theorem construct_validates_interval_witness :
    construct ("echo hi") 30 = Except.ok (initState ("echo hi") 30) ∧
    construct ("echo hi") 0 = Except.error ConfigError.invalidConfiguration ∧
    construct ("echo hi") (-5) = Except.error ConfigError.invalidConfiguration :=
  ⟨(construct_validates_interval ("echo hi") 30).1 (by decide),
   ((construct_validates_interval ("echo hi") 0).2.1 (by decide)).1,
   ((construct_validates_interval ("echo hi") (-5)).2.1 (by decide)).1⟩

/-- C3: the inter-execution wait is decomposed into sub-sleeps of at most
one second, each guarded by a read of the running flag; if the flag reads
false from read index k onward (a termination request has arrived), the
total sleep performed from read index readIdx onward is at most
k - readIdx — in particular zero once the request is visible — so the loop
exits within one sub-interval tick instead of completing the remaining
interval. -/
theorem interruptible_sleep_bounded (flag : Nat → Bool) (remaining readIdx k : Nat) :
    (∀ e ∈ (sleepPhase flag remaining readIdx).2, ∃ n, e = Event.sleepChunk n ∧ n ≤ 1) ∧
    ((∀ t, k ≤ t → flag t = false) →
      sleepSeconds (sleepPhase flag remaining readIdx).2 ≤ k - readIdx) :=
  ⟨sleepPhase_mem flag remaining readIdx,
   fun hk => sleepPhase_stopped flag remaining readIdx k hk⟩

/-- C3 witness: with a 300-second interval and the flag turning false at
read index 2, at most 2 seconds are slept, not the remaining 300. -/
theorem interruptible_sleep_bounded_witness :
    sleepSeconds (sleepPhase (fun t => decide (t < 2)) 300 0).2 ≤ 2 - 0 :=
  (interruptible_sleep_bounded (fun t => decide (t < 2)) 300 0 2).2
    (fun t ht => by simp [decide_eq_false_iff_not]; omega)

/-- C5: an Executor-level fault (exception from `subprocess.run`) yields
exactly the boolean and exactly the state transition of a non-zero exit
status: the failure counter is incremented by one; and whether the loop
exits never depends on the results stream, so no per-execution outcome
terminates the loop. -/
theorem fault_counted_as_failure (s : RunnerState) (rc : Int) (hrc : rc ≠ 0)
    (results1 results2 : Nat → ExecResult) (flag : Nat → Bool)
    (fuel readIdx : Nat) :
    executeCommand (ExecResult.completed rc) = executeCommand ExecResult.fault ∧
    loopBody s (executeCommand (ExecResult.completed rc)) =
      loopBody s (executeCommand ExecResult.fault) ∧
    (loopBody s (executeCommand ExecResult.fault)).failure_count = s.failure_count + 1 ∧
    (runLoop results1 flag fuel s readIdx).isSome =
      (runLoop results2 flag fuel s readIdx).isSome := by
  have hcc : executeCommand (ExecResult.completed rc) = executeCommand ExecResult.fault := by
    simp [executeCommand]
    exact hrc
  refine ⟨hcc, by rw [hcc], ?_, ?_⟩
  · rw [loopBody_failure_count]
    simp [executeCommand]
  · exact runLoop_isSome_congr results1 results2 flag fuel s s readIdx rfl

/-- C5 witness: exit code 1 and a fault produce the same outcome at a
concrete state, the failure counter moves 3 → 4, and a concrete pair of
result streams leaves loop exit unchanged. -/
theorem fault_counted_as_failure_witness :
    executeCommand (ExecResult.completed 1) = executeCommand ExecResult.fault ∧
    (loopBody (initState ("echo hi") 30) (executeCommand ExecResult.fault)).failure_count =
      (initState ("echo hi") 30).failure_count + 1 :=
  ⟨(fault_counted_as_failure (initState ("echo hi") 30) 1 (by decide)
      (fun _ => ExecResult.completed 0) (fun _ => ExecResult.fault)
      (fun t => decide (t = 0)) 1 0).1,
   (fault_counted_as_failure (initState ("echo hi") 30) 1 (by decide)
      (fun _ => ExecResult.completed 0) (fun _ => ExecResult.fault)
      (fun t => decide (t = 0)) 1 0).2.2.1⟩

/-- C6: when a termination request lands while an execution is in flight
(the flag read at the loop top was true, the read right after the
execution is false), the loop records the execution's outcome in the
counters, then exits with the final report and performs no sleep at all. -/
theorem termination_mid_execution (results : Nat → ExecResult) (flag : Nat → Bool)
    (fuel : Nat) (s : RunnerState) (readIdx : Nat)
    (h1 : flag readIdx = true) (h2 : flag (readIdx + 1) = false) :
    runLoop results flag (fuel + 1) s readIdx =
      some (loopBody s (executeCommand (results s.execution_count)),
        [Event.exec s (executeCommand (results s.execution_count)),
         Event.finalReport
           (printSummary (loopBody s (executeCommand (results s.execution_count))))]) ∧
    (∀ sf evs, runLoop results flag (fuel + 1) s readIdx = some (sf, evs) →
      sleepSeconds evs = 0 ∧ sf = loopBody s (executeCommand (results s.execution_count))) := by
  have heq := runLoop_succ_break results flag fuel s readIdx h1 h2
  refine ⟨heq, fun sf evs h => ?_⟩
  rw [heq] at h
  simp only [Option.some.injEq, Prod.mk.injEq] at h
  obtain ⟨h3, h4⟩ := h
  subst h3
  rw [← h4]
  exact ⟨rfl, rfl⟩

/-- C6 witness: with the flag true at read 0 and false at read 1, one
concrete run records the (successful) execution in the final state and
exits with a trace containing no sleep at all. -/
theorem termination_mid_execution_witness :
    runLoop (fun _ => ExecResult.completed 0) (fun t => decide (t = 0)) 1
        (initState ("echo hi") 30) 0 =
      some (loopBody (initState ("echo hi") 30)
          (executeCommand ((fun _ => ExecResult.completed 0)
            (initState ("echo hi") 30).execution_count)),
        [Event.exec (initState ("echo hi") 30)
           (executeCommand ((fun _ => ExecResult.completed 0)
             (initState ("echo hi") 30).execution_count)),
         Event.finalReport
           (printSummary (loopBody (initState ("echo hi") 30)
             (executeCommand ((fun _ => ExecResult.completed 0)
               (initState ("echo hi") 30).execution_count))))]) :=
  (termination_mid_execution (fun _ => ExecResult.completed 0) (fun t => decide (t = 0))
    0 (initState ("echo hi") 30) 0 (by decide) (by decide)).1

/-- C7: a termination request sets `running` to false; issuing it n+1
times produces exactly the state of issuing it once; and `running` never
returns to true: the handler always writes false and the loop body never
touches the flag. -/
theorem termination_request_idempotent (s : RunnerState) (n : Nat) (b : Bool) :
    (signalHandler s).running = false ∧
    signalHandler (signalHandler s) = signalHandler s ∧
    signalHandler^[n + 1] s = signalHandler s ∧
    (loopBody s b).running = s.running :=
  ⟨rfl, signalHandler_signalHandler s, signalHandler_iterate n s, loopBody_running s b⟩

/-- C9: the success rate in a summary equals
successCount / executionCount * 100 exactly when executionCount > 0, and
is omitted (no division performed) when executionCount = 0. -/
theorem success_rate_guarded (s : RunnerState) :
    (0 < s.execution_count →
      (printSummary s).successRate =
        some (((s.success_count : ℚ) / (s.execution_count : ℚ)) * 100)) ∧
    (s.execution_count = 0 → (printSummary s).successRate = none) := by
  constructor
  · intro h
    simp [printSummary, h]
  · intro h
    simp [printSummary, h]

/-- C9 witness: with 2 successes out of 4 executions the rate is 50%;
with 0 executions the rate line is absent. -/
theorem success_rate_guarded_witness :
    (printSummary
      { command := "echo hi", interval := 30, execution_count := 4,
        success_count := 2, failure_count := 2, running := true }).successRate =
      some (((2 : ℚ) / (4 : ℚ)) * 100) ∧
    (printSummary (initState ("echo hi") 30)).successRate = none :=
  ⟨(success_rate_guarded
      { command := "echo hi", interval := 30, execution_count := 4,
        success_count := 2, failure_count := 2, running := true }).1 (by decide),
   (success_rate_guarded (initState ("echo hi") 30)).2 rfl⟩

/-- C10: the interruptible-sleep inner loop terminates: each iteration
with sleep_remaining = r > 0 sleeps min(1, r) > 0 seconds and strictly
decreases the remainder, so the loop performs at most `remaining`
iterations and sleeps at most `remaining` seconds in total. -/
theorem sleep_loop_terminates (flag : Nat → Bool) (remaining readIdx : Nat) :
    (sleepPhase flag remaining readIdx).2.length ≤ remaining ∧
    sleepSeconds (sleepPhase flag remaining readIdx).2 ≤ remaining ∧
    (∀ r, 0 < r → 0 < sleepDecrement r ∧ r - sleepDecrement r < r) :=
  ⟨sleepPhase_length_le flag remaining readIdx,
   sleepSeconds_sleepPhase_le flag remaining readIdx,
   fun r hr => ⟨sleepDecrement_pos r hr, by
     have := sleepDecrement_pos r hr
     have := sleepDecrement_le_one r
     omega⟩⟩

/-- C10 witness: with the flag always true and a 7-second interval the
inner loop runs exactly at most 7 iterations, and the decrement at r = 5
is positive and strictly decreasing. -/
theorem sleep_loop_terminates_witness :
    (sleepPhase (fun _ => true) 7 0).2.length ≤ 7 ∧
    0 < sleepDecrement 5 ∧ 5 - sleepDecrement 5 < 5 :=
  ⟨(sleep_loop_terminates (fun _ => true) 7 0).1,
   ((sleep_loop_terminates (fun _ => true) 7 0).2.2 5 (by decide)).1,
   ((sleep_loop_terminates (fun _ => true) 7 0).2.2 5 (by decide)).2⟩

/-- C1: starting from a state with consistent counters, every state the
loop reaches — the state before each execution, the state right after its
counters are updated, and the final state — satisfies
successCount + failureCount = executionCount, and the success counter is
incremented by that update exactly when the execution's outcome is
success. -/
theorem counters_invariant (results : Nat → ExecResult) (flag : Nat → Bool)
    (fuel : Nat) (s : RunnerState) (readIdx : Nat) (sf : RunnerState) (evs : List Event)
    (hs : countersConsistent s)
    (h : runLoop results flag fuel s readIdx = some (sf, evs)) :
    countersConsistent sf ∧
    ∀ pre b, Event.exec pre b ∈ evs →
      countersConsistent pre ∧ countersConsistent (loopBody pre b) ∧
      ((loopBody pre b).success_count = pre.success_count + 1 ↔ b = true) := by
  induction fuel generalizing s readIdx sf evs with
  | zero => simp [runLoop_zero] at h
  | succ fuel ih =>
    cases h1 : flag readIdx with
    | false =>
      rw [runLoop_succ_stop results flag fuel s readIdx h1] at h
      simp only [Option.some.injEq, Prod.mk.injEq] at h
      obtain ⟨rfl, rfl⟩ := h
      refine ⟨hs, fun pre b hmem => ?_⟩
      simp at hmem
    | true =>
      cases h2 : flag (readIdx + 1) with
      | false =>
        rw [runLoop_succ_break results flag fuel s readIdx h1 h2] at h
        simp only [Option.some.injEq, Prod.mk.injEq] at h
        obtain ⟨rfl, rfl⟩ := h
        refine ⟨countersConsistent_loopBody _ hs, fun pre b hmem => ?_⟩
        simp only [List.mem_cons, List.mem_singleton] at hmem
        rcases hmem with heq | heq
        · injection heq with hpre hb
          subst hpre; subst hb
          exact ⟨hs, countersConsistent_loopBody _ hs, loopBody_success_iff _ _⟩
        · simp at heq
      | true =>
        rw [runLoop_succ_continue results flag fuel s readIdx h1 h2] at h
        cases hrec : runLoop results flag fuel
            (loopBody s (executeCommand (results s.execution_count)))
            (sleepPhase flag
              (loopBody s (executeCommand (results s.execution_count))).interval.toNat
              (readIdx + 2)).1 with
        | none => rw [hrec] at h; simp at h
        | some p =>
          obtain ⟨pf, pevs⟩ := p
          rw [hrec] at h
          simp only [Option.map_some', Option.some.injEq, Prod.mk.injEq] at h
          obtain ⟨rfl, rfl⟩ := h
          have hrest := ih _ _ _ _ (countersConsistent_loopBody _ hs) hrec
          refine ⟨hrest.1, fun pre b hmem => ?_⟩
          simp only [List.mem_cons, List.mem_append] at hmem
          rcases hmem with heq | heq | hmem | hmem
          · injection heq with hpre hb
            subst hpre; subst hb
            exact ⟨hs, countersConsistent_loopBody _ hs, loopBody_success_iff _ _⟩
          · simp at heq
          · obtain ⟨n, hn, -⟩ := sleepPhase_mem flag _ _ _ hmem
            simp at hn
          · exact hrest.2 pre b hmem

/-- C1 witness: a concrete two-phase run (one successful execution, then
the flag turns false) from the fresh state: the invariant holds at the
final state and at every execution's pre/post state. -/
theorem counters_invariant_witness :
    countersConsistent
      (loopBody (initState ("echo hi") 30)
        (executeCommand ((fun _ => ExecResult.completed 0) 0))) :=
  (counters_invariant (fun _ => ExecResult.completed 0) (fun t => decide (t = 0)) 1
    (initState ("echo hi") 30) 0
    (loopBody (initState ("echo hi") 30)
      (executeCommand ((fun _ => ExecResult.completed 0) 0)))
    [Event.exec (initState ("echo hi") 30)
       (executeCommand ((fun _ => ExecResult.completed 0) 0)),
     Event.finalReport
       (printSummary (loopBody (initState ("echo hi") 30)
         (executeCommand ((fun _ => ExecResult.completed 0) 0))))]
    (by decide) (by rfl)).1

/-- C4: whenever the loop exits — immediately, after a break on a
mid-execution termination, or after any number of iterations — the trace
of the run contains exactly one final status report. -/
theorem final_report_exactly_once (results : Nat → ExecResult) (flag : Nat → Bool)
    (fuel : Nat) (s : RunnerState) (readIdx : Nat) (sf : RunnerState) (evs : List Event)
    (h : runLoop results flag fuel s readIdx = some (sf, evs)) :
    countFinalReports evs = 1 := by
  induction fuel generalizing s readIdx sf evs with
  | zero => simp [runLoop_zero] at h
  | succ fuel ih =>
    cases h1 : flag readIdx with
    | false =>
      rw [runLoop_succ_stop results flag fuel s readIdx h1] at h
      simp only [Option.some.injEq, Prod.mk.injEq] at h
      obtain ⟨-, rfl⟩ := h
      rfl
    | true =>
      cases h2 : flag (readIdx + 1) with
      | false =>
        rw [runLoop_succ_break results flag fuel s readIdx h1 h2] at h
        simp only [Option.some.injEq, Prod.mk.injEq] at h
        obtain ⟨-, rfl⟩ := h
        rfl
      | true =>
        rw [runLoop_succ_continue results flag fuel s readIdx h1 h2] at h
        cases hrec : runLoop results flag fuel
            (loopBody s (executeCommand (results s.execution_count)))
            (sleepPhase flag
              (loopBody s (executeCommand (results s.execution_count))).interval.toNat
              (readIdx + 2)).1 with
        | none => rw [hrec] at h; simp at h
        | some p =>
          obtain ⟨pf, pevs⟩ := p
          rw [hrec] at h
          simp only [Option.map_some', Option.some.injEq, Prod.mk.injEq] at h
          obtain ⟨-, rfl⟩ := h
          simp only [countFinalReports, countFinalReports_append,
            countFinalReports_sleepPhase]
          have := ih _ _ _ _ hrec
          omega

/-- C4 witness: a run in which the flag is false at the very first read
(termination before any execution) still emits exactly one final report. -/
theorem final_report_exactly_once_witness :
    countFinalReports [Event.finalReport (printSummary (initState ("echo hi") 30))] = 1 :=
  final_report_exactly_once (fun _ => ExecResult.completed 0) (fun _ => false) 1
    (initState ("echo hi") 30) 0 (initState ("echo hi") 30)
    [Event.finalReport (printSummary (initState ("echo hi") 30))] (by rfl)

/-- C8: over any completed run, executionCount grows by exactly the number
of execution attempts in the trace (one increment per attempt); the
increment is the pre-executor `execution_count += 1` and does not depend
on the outcome. -/
theorem execution_count_per_attempt (results : Nat → ExecResult) (flag : Nat → Bool)
    (fuel : Nat) (s : RunnerState) (readIdx : Nat) (sf : RunnerState) (evs : List Event)
    (h : runLoop results flag fuel s readIdx = some (sf, evs)) :
    sf.execution_count = s.execution_count + countExecs evs ∧
    ∀ s' (b : Bool), (loopBody s' b).execution_count = (incrementExecution s').execution_count ∧
      (incrementExecution s').execution_count = s'.execution_count + 1 := by
  refine ⟨?_, fun s' b => ⟨by rw [loopBody_execution_count]; rfl, rfl⟩⟩
  induction fuel generalizing s readIdx sf evs with
  | zero => simp [runLoop_zero] at h
  | succ fuel ih =>
    cases h1 : flag readIdx with
    | false =>
      rw [runLoop_succ_stop results flag fuel s readIdx h1] at h
      simp only [Option.some.injEq, Prod.mk.injEq] at h
      obtain ⟨rfl, rfl⟩ := h
      rfl
    | true =>
      cases h2 : flag (readIdx + 1) with
      | false =>
        rw [runLoop_succ_break results flag fuel s readIdx h1 h2] at h
        simp only [Option.some.injEq, Prod.mk.injEq] at h
        obtain ⟨rfl, rfl⟩ := h
        rw [loopBody_execution_count]
        rfl
      | true =>
        rw [runLoop_succ_continue results flag fuel s readIdx h1 h2] at h
        cases hrec : runLoop results flag fuel
            (loopBody s (executeCommand (results s.execution_count)))
            (sleepPhase flag
              (loopBody s (executeCommand (results s.execution_count))).interval.toNat
              (readIdx + 2)).1 with
        | none => rw [hrec] at h; simp at h
        | some p =>
          obtain ⟨pf, pevs⟩ := p
          rw [hrec] at h
          simp only [Option.map_some', Option.some.injEq, Prod.mk.injEq] at h
          obtain ⟨rfl, rfl⟩ := h
          have hrest := ih _ _ _ _ hrec
          rw [loopBody_execution_count] at hrest
          simp only [countExecs, countExecs_append, countExecs_sleepPhase]
          omega

/-- C8 witness: in the one-execution run, the final execution count is the
initial count plus the single attempt in the trace. -/
theorem execution_count_per_attempt_witness :
    (loopBody (initState ("echo hi") 30)
      (executeCommand ((fun _ => ExecResult.completed 0) 0))).execution_count =
      (initState ("echo hi") 30).execution_count +
        countExecs
          [Event.exec (initState ("echo hi") 30)
             (executeCommand ((fun _ => ExecResult.completed 0) 0)),
           Event.finalReport
             (printSummary (loopBody (initState ("echo hi") 30)
               (executeCommand ((fun _ => ExecResult.completed 0) 0))))] :=
  (execution_count_per_attempt (fun _ => ExecResult.completed 0) (fun t => decide (t = 0)) 1
    (initState ("echo hi") 30) 0 _ _ (by rfl)).1

end PeriodicRunner
